import Mathlib

/-!
Verification of the maze-racer backend session layer.

The Go sources are shallowly embedded: pure fragments become Lean
functions, the stateful control loops become explicit step functions on
state records, channel sends become explicit effect values, and Go's
`int` becomes `Int`.  Where the source relies on Go map iteration order
(an unspecified order), the embedding takes the enumeration as an
explicit parameter constrained to be a permutation of the map contents.
-/

set_option maxRecDepth 8192

namespace MazeRacer

/-- Game modes (`GameMode`, main.go). -/
inductive GameMode
  | sprint
  | race
deriving DecidableEq

/-- Client statuses (`ClientStatus`, main.go). -/
inductive ClientStatus
  | queued
  | confirming
  | ready
  | inGame
  | endGame
deriving DecidableEq

/-- The `Player` (models.go).  The float64 fields `Position` and `Rotation`
are omitted from the embedding (floating point; no claim refers to
them). -/
structure Player where
  id : String
  active : Bool
  username : String
  flag : String
  level : Int
deriving DecidableEq

/-- The `PlayerScore` (models.go). -/
structure PlayerScore where
  username : String
  flag : String
  level : Int
deriving DecidableEq

/-- The `RoundResult` (models.go). -/
structure RoundResult where
  playerScores : List PlayerScore
deriving DecidableEq

/-- The ordering used by `GetRoundResult`: `slices.SortFunc` with the
comparator `cmp.Compare(b.Level, a.Level)` places `a` no later than `b`
exactly when `b.Level ≤ a.Level`, i.e. level descending. -/
def scoreLe (a b : PlayerScore) : Prop := b.level ≤ a.level

instance : DecidableRel scoreLe :=
  fun a b => inferInstanceAs (Decidable (b.level ≤ a.level))

instance : IsTotal PlayerScore scoreLe := ⟨fun a b => le_total b.level a.level⟩

instance : IsTrans PlayerScore scoreLe := ⟨fun _ _ _ hab hbc => le_trans hbc hab⟩

/-- Strict companion of `scoreLe`, used to reason about states whose
levels are pairwise distinct. -/
def scoreBelow (a b : PlayerScore) : Prop := b.level < a.level

instance : IsAntisymm PlayerScore scoreBelow :=
  ⟨fun _ _ h1 h2 => absurd (lt_trans h1 h2) (lt_irrefl _)⟩

/-- The sort inside `GetRoundResult` (models.go lines 93-96).  The source
uses `slices.SortFunc`, whose ordering of equal elements is unspecified;
the embedding uses insertion sort, and the residual freedom on equal
levels is carried by the enumeration-order parameter of
`GetRoundResult`. -/
def sortScores (scores : List PlayerScore) : List PlayerScore :=
  List.insertionSort scoreLe scores

/-- One `PlayerScore` entry built from a player (models.go lines 86-90). -/
def playerScoreOf (p : Player) : PlayerScore :=
  { username := p.username, flag := p.flag, level := p.level }

/-- The `GameState.GetRoundResult` (models.go lines 83-101).  `playersEnum`
is the sequence returned by `gs.Players.Values()`: the registry contents
in the unspecified iteration order of the underlying Go map. -/
def GetRoundResult (playersEnum : List Player) : RoundResult :=
  { playerScores := sortScores (playersEnum.map playerScoreOf) }

/-- Sample players with the levels 5, 3 and 7 used in the spec's ranking
example. -/
def pLvl5 : Player :=
  { id := "p1", active := false, username := "alice", flag := "US", level := 5 }

def pLvl3 : Player :=
  { id := "p2", active := false, username := "bob", flag := "UK", level := 3 }

def pLvl7 : Player :=
  { id := "p3", active := false, username := "carol", flag := "FR", level := 7 }

/-- Sample players sharing the same level, for the equal-level ordering
question. -/
def pTie1 : Player :=
  { id := "t1", active := true, username := "dave", flag := "DE", level := 4 }

def pTie2 : Player :=
  { id := "t2", active := true, username := "erin", flag := "ES", level := 4 }

/-- Two sorted enumerations of the same score multiset agree when the
levels are pairwise distinct. -/
theorem sortedScoresEqOfPerm (l1 l2 : List PlayerScore) (hp : l1.Perm l2)
    (hs1 : l1.Sorted scoreLe) (hs2 : l2.Sorted scoreLe)
    (hd : l1.Pairwise fun a b => a.level ≠ b.level) : l1 = l2 := by
  have hsym : Symmetric fun a b : PlayerScore => a.level ≠ b.level :=
    fun a b h1 h2 => h1 h2.symm
  have hd2 : l2.Pairwise fun a b => a.level ≠ b.level :=
    (hp.pairwise_iff fun hxy => hsym hxy).mp hd
  have hst1 : l1.Sorted scoreBelow :=
    (hs1.and hd).imp fun h => lt_of_le_of_ne h.1 (Ne.symm h.2)
  have hst2 : l2.Sorted scoreBelow :=
    (hs2.and hd2).imp fun h => lt_of_le_of_ne h.1 (Ne.symm h.2)
  exact List.eq_of_perm_of_sorted hp hst1 hst2

/-- C5: `GetRoundResult` returns one score entry per registered player
(the result is a permutation of the per-player scores of any valid
registry enumeration), sorted by level in nonincreasing order; for the
three sample players with levels 5, 3 and 7 the result lists them as
[7, 5, 3], each level paired with its own username and flag, for two
representative enumeration orders. -/
theorem roundResultRanking (players o : List Player) (h : o.Perm players) :
    (GetRoundResult o).playerScores.Perm (players.map playerScoreOf) ∧
    (GetRoundResult o).playerScores.Sorted scoreLe ∧
    GetRoundResult [pLvl5, pLvl3, pLvl7] =
      { playerScores := [playerScoreOf pLvl7, playerScoreOf pLvl5, playerScoreOf pLvl3] } ∧
    GetRoundResult [pLvl7, pLvl3, pLvl5] =
      { playerScores := [playerScoreOf pLvl7, playerScoreOf pLvl5, playerScoreOf pLvl3] } := by
  refine ⟨?_, ?_, by decide, by decide⟩
  · exact (List.perm_insertionSort scoreLe (o.map playerScoreOf)).trans (h.map playerScoreOf)
  · exact List.sorted_insertionSort scoreLe (o.map playerScoreOf)

theorem roundResultRankingWitness :
    ([pLvl5, pLvl3, pLvl7] : List Player).Perm [pLvl5, pLvl3, pLvl7] ∧
    (GetRoundResult [pLvl5, pLvl3, pLvl7]).playerScores.Sorted scoreLe :=
  ⟨List.Perm.refl _,
   (roundResultRanking [pLvl5, pLvl3, pLvl7] [pLvl5, pLvl3, pLvl7] (List.Perm.refl _)).2.1⟩

/-- C6 counterexample: the same registry contents under two valid
iteration orders produce different score sequences when two players
share a level, so repeated calls are not order-deterministic. -/
theorem roundResultOrderDependent :
    ([pTie2, pTie1] : List Player).Perm [pTie1, pTie2] ∧
    GetRoundResult [pTie1, pTie2] ≠ GetRoundResult [pTie2, pTie1] :=
  ⟨List.Perm.swap pTie1 pTie2 [], by decide⟩

/-- C6 (amended): two calls of `GetRoundResult` against the same
unmodified registry return score sequences that are permutations of each
other and sorted by level descending; they are identical whenever all
players' levels are pairwise distinct, but equal-level entries may be
reordered between calls because the registry's iteration order is
unspecified. -/
theorem roundResultStable (data o1 o2 : List Player)
    (h1 : o1.Perm data) (h2 : o2.Perm data) :
    (GetRoundResult o1).playerScores.Perm (GetRoundResult o2).playerScores ∧
    (GetRoundResult o1).playerScores.Sorted scoreLe ∧
    ((data.map playerScoreOf).Pairwise (fun a b => a.level ≠ b.level) →
      GetRoundResult o1 = GetRoundResult o2) := by
  have hperm1 : (GetRoundResult o1).playerScores.Perm (data.map playerScoreOf) :=
    (List.perm_insertionSort scoreLe (o1.map playerScoreOf)).trans (h1.map playerScoreOf)
  have hperm2 : (GetRoundResult o2).playerScores.Perm (data.map playerScoreOf) :=
    (List.perm_insertionSort scoreLe (o2.map playerScoreOf)).trans (h2.map playerScoreOf)
  have hs1 : (GetRoundResult o1).playerScores.Sorted scoreLe :=
    List.sorted_insertionSort scoreLe (o1.map playerScoreOf)
  have hs2 : (GetRoundResult o2).playerScores.Sorted scoreLe :=
    List.sorted_insertionSort scoreLe (o2.map playerScoreOf)
  refine ⟨hperm1.trans hperm2.symm, hs1, fun hd => ?_⟩
  have hsym : Symmetric fun a b : PlayerScore => a.level ≠ b.level :=
    fun a b hne he => hne he.symm
  have hd1 : (GetRoundResult o1).playerScores.Pairwise fun a b => a.level ≠ b.level :=
    (hperm1.pairwise_iff fun hxy => hsym hxy).mpr hd
  have hlists : (GetRoundResult o1).playerScores = (GetRoundResult o2).playerScores :=
    sortedScoresEqOfPerm _ _ (hperm1.trans hperm2.symm) hs1 hs2 hd1
  exact congrArg RoundResult.mk hlists

theorem roundResultStableWitness :
    GetRoundResult [pLvl5, pLvl3, pLvl7] = GetRoundResult [pLvl7, pLvl5, pLvl3] :=
  (roundResultStable [pLvl5, pLvl3, pLvl7] [pLvl5, pLvl3, pLvl7] [pLvl7, pLvl5, pLvl3]
    (List.Perm.refl _) (by decide)).2.2 (by decide)

/-! ## Wire messages and identifiers -/

/-- Clients (`*Client` pointers) are identified by an abstract id. -/
abbrev ClientId := Nat

/-- Game / challenge ids (`gonanoid` strings in game.go). -/
abbrev GameId := String

/-- Outbound message types produced by the core (messages.go response
constants).  Payload details irrelevant to the claims are summarized by
the constructor arguments. -/
inductive Msg
  | queueJoined (queue : GameMode)
  | queueLeft (queue : GameMode)
  | gameConfirmed (gameId : GameId)
  | gameCancelled
  | joinRunningGame
  | secondsToNextRoundStart (secs : Int)
  | challengeCreated (challengeId : GameId)
  | challengeStale
  | gameStateUpdate
  | roundResultOf (r : RoundResult)
deriving DecidableEq

/-! ## Concurrent registry (concurrent_map.go `mutexMap`)

The registries keyed by strings (`headToHeadGames`,
`activeChallenges`) are modelled as association lists without duplicate
keys, with Go map semantics for `Set`, `Get` and `Del`. -/

/-- The `mutexMap.Set`: add or update a key-value pair. -/
def cmapSet {V : Type} (m : List (GameId × V)) (k : GameId) (v : V) :
    List (GameId × V) :=
  match m with
  | [] => [(k, v)]
  | (k1, v1) :: rest => if k1 = k then (k, v) :: rest else (k1, v1) :: cmapSet rest k v

/-- The `mutexMap.Get`: retrieve a value by key. -/
def cmapGet {V : Type} (m : List (GameId × V)) (k : GameId) : Option V :=
  match m with
  | [] => none
  | (k1, v1) :: rest => if k1 = k then some v1 else cmapGet rest k

/-- The `mutexMap.Del`: remove a key-value pair. -/
def cmapDel {V : Type} (m : List (GameId × V)) (k : GameId) :
    List (GameId × V) :=
  match m with
  | [] => []
  | (k1, v1) :: rest => if k1 = k then rest else (k1, v1) :: cmapDel rest k

/-! ## Matchmaker (main.go lines 1210-1402) -/

/-- The `Matchmaker` state: the two FIFO queues, the live-session registry
`headToHeadGames` (each game summarized by its mode) and the pending
challenge registry `activeChallenges`. -/
structure MMSt where
  sprintQueue : List ClientId
  raceQueue : List ClientId
  games : List (GameId × GameMode)
  activeChallenges : List (GameId × GameMode)
deriving DecidableEq

/-- Side effects performed by matchmaker operations. -/
inductive MMEffect
  | clientSend (c : ClientId) (m : Msg)
  | createGame (gid : GameId) (mode : GameMode)
  | spawnListeners (gid : GameId)
  | gameAttach (gid : GameId) (c : ClientId)
deriving DecidableEq

/-- The `Matchmaker.RemoveFromQueue` (main.go lines 1317-1348).  Returns the
new state, the sends performed, and an error flag (`true` when the
client was in no queue).  Note the source truncates the containing
queue with `queue[:1]` instead of filtering the client out. -/
def RemoveFromQueue (m : MMSt) (c : ClientId) : MMSt × List MMEffect × Bool :=
  if c ∈ m.sprintQueue then
    ({ m with sprintQueue := m.sprintQueue.take 1 },
     [MMEffect.clientSend c (Msg.queueLeft GameMode.sprint)], false)
  else if c ∈ m.raceQueue then
    ({ m with raceQueue := m.raceQueue.take 1 },
     [MMEffect.clientSend c (Msg.queueLeft GameMode.race)], false)
  else
    (m, [], true)

/-- The `Matchmaker.AddToQueue` (main.go lines 1235-1314).  `freshId` is the
id the new game receives if this call pairs two clients.  When the
queue holds at least two clients after the append, the first two are
popped, a game is created and registered, its control loop is spawned
and both clients are attached in FIFO order. -/
def AddToQueue (m : MMSt) (c : ClientId) (mode : GameMode) (freshId : GameId) :
    MMSt × List MMEffect :=
  match mode with
  | GameMode.sprint =>
    let q := m.sprintQueue ++ [c]
    let joinSend := [MMEffect.clientSend c (Msg.queueJoined GameMode.sprint)]
    match q with
    | c1 :: c2 :: rest =>
      ({ m with sprintQueue := rest, games := cmapSet m.games freshId GameMode.sprint },
       joinSend ++
         [MMEffect.createGame freshId GameMode.sprint, MMEffect.spawnListeners freshId,
          MMEffect.gameAttach freshId c1, MMEffect.gameAttach freshId c2])
    | _ => ({ m with sprintQueue := q }, joinSend)
  | GameMode.race =>
    let q := m.raceQueue ++ [c]
    let joinSend := [MMEffect.clientSend c (Msg.queueJoined GameMode.race)]
    match q with
    | c1 :: c2 :: rest =>
      ({ m with raceQueue := rest, games := cmapSet m.games freshId GameMode.race },
       joinSend ++
         [MMEffect.createGame freshId GameMode.race, MMEffect.spawnListeners freshId,
          MMEffect.gameAttach freshId c1, MMEffect.gameAttach freshId c2])
    | _ => ({ m with raceQueue := q }, joinSend)

/-- Sequential application of `AddToQueue` for a list of
(client, mode, fresh game id) requests, collecting all effects. -/
def addSeq (m : MMSt) : List (ClientId × GameMode × GameId) → MMSt × List MMEffect
  | [] => (m, [])
  | (c, mode, fid) :: rest =>
    let step1 := AddToQueue m c mode fid
    let stepRest := addSeq step1.1 rest
    (stepRest.1, step1.2 ++ stepRest.2)

/-- The empty matchmaker (`NewMatchmaker`). -/
def mmEmpty : MMSt := { sprintQueue := [], raceQueue := [], games := [], activeChallenges := [] }

/-- The queue of the given mode. -/
def queueFor (m : MMSt) : GameMode → List ClientId
  | GameMode.sprint => m.sprintQueue
  | GameMode.race => m.raceQueue

/-- C1: `RemoveFromQueue` does not remove exactly the requested client.
Removing client 2 from the sprint queue [1, 2, 3] leaves [1] — client 3
is dropped although it was merely waiting — instead of the [1, 3] the
claim requires; and removing the head client 1 from [1, 2] leaves [1],
i.e. the removed client itself stays in the queue. -/
theorem removeFromQueueTruncation :
    (RemoveFromQueue { mmEmpty with sprintQueue := [1, 2, 3] } 2).1.sprintQueue = [1] ∧
    ¬ (RemoveFromQueue { mmEmpty with sprintQueue := [1, 2, 3] } 2).1.sprintQueue = [1, 3] ∧
    (RemoveFromQueue { mmEmpty with sprintQueue := [1, 2] } 1).1.sprintQueue = [1] := by
  decide

/-! ## Session state machine (`BaseGame.RunListeners`, game.go lines 161-260)

The control loop is embedded as a step function on an explicit state.
Channel sends to clients become output values that record whether the
source performs a plain (blocking-capable) send or a non-blocking
select with an eviction fallback. -/

/-- Events consumed by the control loop's select. -/
inductive GEvent
  | ctxCancelled
  | add (c : ClientId)
  | remove (c : ClientId)
  | countdownDone
  | broadcast (m : Msg)
deriving DecidableEq

/-- Outputs emitted by the control loop and its helpers.
`sendDirect` is a plain `client.send <- msg` channel send (blocks when
the buffer is full, panics when the channel is closed);
`trySendElseRemove` is the non-blocking `select` send of
`broadcastMessage` that falls back to enqueuing a removal;
`enqueueRemove` is the `g.remove <- client` send for a client whose
context is already done. -/
inductive GOut
  | sendDirect (c : ClientId) (m : Msg)
  | trySendElseRemove (c : ClientId) (m : Msg)
  | enqueueRemove (c : ClientId)
  | setStatus (c : ClientId) (s : ClientStatus)
  | spawnCountdown
  | spawnBroadcaster
deriving DecidableEq

/-- Whether an output is a plain (blocking-capable) channel send to a
client's outbound queue. -/
def isDirectSend : GOut → Bool
  | GOut.sendDirect _ _ => true
  | _ => false

/-- Whether an output is a send (of either kind) to a client's outbound
queue. -/
def isClientSend : GOut → Bool
  | GOut.sendDirect _ _ => true
  | GOut.trySendElseRemove _ _ => true
  | _ => false

/-- The `BaseGame.broadcastMessage` (game.go lines 99-112): for each
attached client, if its context is done, enqueue a removal; otherwise
attempt a non-blocking send and enqueue a removal when the buffer is
full.  `ctxDone` tells which clients' contexts are cancelled. -/
def broadcastMessageOps (ctxDone : ClientId → Bool) (clients : List ClientId)
    (message : Msg) : List GOut :=
  clients.flatMap fun c =>
    if ctxDone c then [GOut.enqueueRemove c]
    else [GOut.trySendElseRemove c message]

/-- The confirmation loop at the top of `BaseGame.StartCountdown`
(game.go lines 278-285): a plain `client.send <- confirmMsg` followed by
`client.SetStatus(StatusConfirming)` for every attached client. -/
def startCountdownConfirmOps (clients : List ClientId) (gid : GameId) : List GOut :=
  clients.flatMap fun c =>
    [GOut.sendDirect c (Msg.gameConfirmed gid),
     GOut.setStatus c ClientStatus.confirming]

/-- The cancellation notice loop
`for client := range g.Clients { client.send <- msg }` (game.go lines
193-195, orphaned countdown, and lines 235-237, insufficient players):
a plain send of `game_cancelled` to every remaining client. -/
def cancelNoticeOps (clients : List ClientId) : List GOut :=
  clients.map fun c => GOut.sendDirect c Msg.gameCancelled

/-- Control-loop phases: `phase1` is the pre-start loop (forming and
counting down), `phase2` the running-game loop after the `GamePhase`
label, `terminated` means the loop has returned. -/
inductive GPhase
  | phase1
  | phase2
  | terminated
deriving DecidableEq

/-- Control-loop state: the attached client set `g.Clients`, the player
registry keys of `g.State.Players` (updated in lockstep), and the
`countdownStarted` flag. -/
structure GameSt where
  phase : GPhase
  clients : List ClientId
  playerIds : List ClientId
  countdownStarted : Bool
deriving DecidableEq

/-- The fresh control-loop state of a new game. -/
def gameInit : GameSt :=
  { phase := GPhase.phase1, clients := [], playerIds := [], countdownStarted := false }

/-- One iteration of `BaseGame.RunListeners` (game.go lines 161-246),
consuming one select event.  `BaseGame.Cleanup` (lines 248-260) cancels
the context and empties the client set and player registry; it is
inlined in the two branches that call it before returning. -/
def gameStep (ctxDone : ClientId → Bool) (s : GameSt) (e : GEvent) :
    GameSt × List GOut :=
  match s.phase, e with
  | GPhase.terminated, _ => (s, [])
  | GPhase.phase1, GEvent.ctxCancelled => ({ s with phase := GPhase.terminated }, [])
  | GPhase.phase1, GEvent.add c =>
    let clients := if c ∈ s.clients then s.clients else s.clients ++ [c]
    let playerIds := if c ∈ s.playerIds then s.playerIds else s.playerIds ++ [c]
    let s1 := { s with clients := clients, playerIds := playerIds }
    if 2 ≤ clients.length ∧ s.countdownStarted = false then
      ({ s1 with countdownStarted := true }, [GOut.spawnCountdown])
    else
      (s1, [])
  | GPhase.phase1, GEvent.remove c =>
    let s1 :=
      if c ∈ s.clients then
        { s with clients := s.clients.erase c, playerIds := s.playerIds.erase c }
      else s
    if s1.clients.length < 2 ∧ s.countdownStarted = true then
      ({ s1 with phase := GPhase.terminated, clients := [], playerIds := [] },
       cancelNoticeOps s1.clients)
    else
      (s1, [])
  | GPhase.phase1, GEvent.countdownDone =>
    ({ s with phase := GPhase.phase2 },
     (s.clients.map fun c => GOut.setStatus c ClientStatus.inGame) ++
       [GOut.spawnBroadcaster])
  | GPhase.phase1, GEvent.broadcast m => (s, broadcastMessageOps ctxDone s.clients m)
  | GPhase.phase2, GEvent.ctxCancelled => ({ s with phase := GPhase.terminated }, [])
  | GPhase.phase2, GEvent.add c => (s, [GOut.sendDirect c Msg.joinRunningGame])
  | GPhase.phase2, GEvent.remove c =>
    if c ∈ s.clients then
      let s1 := { s with clients := s.clients.erase c, playerIds := s.playerIds.erase c }
      if s1.clients.length < 2 then
        ({ s1 with phase := GPhase.terminated, clients := [], playerIds := [] },
         cancelNoticeOps s1.clients)
      else
        (s1, [])
    else (s, [])
  | GPhase.phase2, GEvent.countdownDone => (s, [])
  | GPhase.phase2, GEvent.broadcast m => (s, broadcastMessageOps ctxDone s.clients m)

/-- Run the control loop over a sequence of events, collecting all
outputs. -/
def gameRun (ctxDone : ClientId → Bool) (s : GameSt) :
    List GEvent → GameSt × List GOut
  | [] => (s, [])
  | e :: es =>
    let step1 := gameStep ctxDone s e
    let stepRest := gameRun ctxDone step1.1 es
    (stepRest.1, step1.2 ++ stepRest.2)

/-- A state whose control loop has returned. -/
def gameTerm (cs ps : List ClientId) (f : Bool) : GameSt :=
  { phase := GPhase.terminated, clients := cs, playerIds := ps, countdownStarted := f }

/-- A terminated control loop consumes no further events and emits no
further outputs. -/
theorem gameRunTerminated (ctxDone : ClientId → Bool) (cs ps : List ClientId)
    (f : Bool) (es : List GEvent) :
    gameRun ctxDone (gameTerm cs ps f) es = (gameTerm cs ps f, []) := by
  induction es with
  | nil => rfl
  | cons e es ih => simpa [gameRun, gameStep, gameTerm] using ih

/-- C2 counterexample: the game-confirmed sends of `StartCountdown` and
the game-cancelled notices are plain direct sends, so the stated
discipline (no blocking direct send from session/broadcast code at
those sites) fails already for a single attached client. -/
theorem sendDisciplineClaimFalse :
    ¬ ((((broadcastMessageOps (fun _ => false) [0] Msg.gameCancelled).all
            fun op => !(isDirectSend op)) = true) ∧
       (((startCountdownConfirmOps [0] "g1").all
            fun op => !(isDirectSend op)) = true) ∧
       (((cancelNoticeOps [0]).all fun op => !(isDirectSend op)) = true)) := by
  decide

/-- C2 (amended): `broadcastMessage` alone follows the non-blocking
discipline — every one of its outputs is either a non-blocking
try-send-else-evict or a removal for a cancelled context, never a plain
direct send; the game-confirmed send in `StartCountdown` and the
game-cancelled notices of the orphan and insufficient-players paths
perform plain direct (blocking-capable) sends. -/
theorem sendDiscipline (ctxDone : ClientId → Bool) (clients : List ClientId)
    (m : Msg) (gid : GameId) :
    ((broadcastMessageOps ctxDone clients m).all
        fun op => !(isDirectSend op)) = true ∧
    (((startCountdownConfirmOps clients gid).filter isClientSend).all
        isDirectSend) = true ∧
    ((cancelNoticeOps clients).all isDirectSend) = true := by
  refine ⟨?_, ?_, ?_⟩
  · induction clients with
    | nil => rfl
    | cons c cs ih =>
      cases hc : ctxDone c <;>
        simp [broadcastMessageOps, hc, isDirectSend] at ih ⊢ <;> exact ih
  · induction clients with
    | nil => rfl
    | cons c cs ih =>
      simp [startCountdownConfirmOps, isClientSend, isDirectSend] at ih ⊢
  · induction clients with
    | nil => rfl
    | cons c cs ih =>
      simp [cancelNoticeOps, isDirectSend] at ih ⊢

/-- C3: with exactly two clients attached during the countdown
(`countdownStarted = true`), processing a detach of either client sends
exactly one game-cancelled message, to the remaining client, empties
the session and terminates the control loop; afterwards no event of any
kind is processed and nothing further is emitted, so the session never
returns to the forming phase. -/
theorem orphanDuringCountdown (ctxDone : ClientId → Bool) (a b : ClientId)
    (hab : a ≠ b) :
    gameStep ctxDone ⟨GPhase.phase1, [a, b], [a, b], true⟩ (GEvent.remove a) =
      (gameTerm [] [] true, [GOut.sendDirect b Msg.gameCancelled]) ∧
    gameStep ctxDone ⟨GPhase.phase1, [a, b], [a, b], true⟩ (GEvent.remove b) =
      (gameTerm [] [] true, [GOut.sendDirect a Msg.gameCancelled]) ∧
    ∀ es : List GEvent,
      gameRun ctxDone (gameTerm [] [] true) es = (gameTerm [] [] true, []) := by
  refine ⟨?_, ?_, fun es => gameRunTerminated ctxDone [] [] true es⟩
  · simp [gameStep, cancelNoticeOps, gameTerm]
  · simp [gameStep, cancelNoticeOps, gameTerm, List.erase_cons, hab, Ne.symm hab]

theorem orphanDuringCountdownWitness :
    (0 : ClientId) ≠ 1 ∧
    gameStep (fun _ => false) ⟨GPhase.phase1, [0, 1], [0, 1], true⟩ (GEvent.remove 0) =
      (gameTerm [] [] true, [GOut.sendDirect 1 Msg.gameCancelled]) ∧
    gameRun (fun _ => false) (gameTerm [] [] true)
        [GEvent.add 5, GEvent.broadcast Msg.gameStateUpdate] =
      (gameTerm [] [] true, []) :=
  ⟨by decide,
   (orphanDuringCountdown (fun _ => false) 0 1 (by decide)).1,
   (orphanDuringCountdown (fun _ => false) 0 1 (by decide)).2.2 _⟩

/-- The three-client enqueue scenario of the pairing claim. -/
def pairingRun (mode : GameMode) : MMSt × List MMEffect :=
  addSeq mmEmpty [(1, mode, "g1"), (2, mode, "g2"), (3, mode, "g3")]

/-- C7: enqueuing clients 1, 2, 3 into the same mode's queue from an
empty matchmaker creates exactly one game (registered under the id
fresh at client 2's call), attaches exactly clients 1 and 2 to it in
FIFO order, and leaves client 3 as the sole waiter across both queues;
feeding the two attach events to a fresh control loop yields the
attached set [1, 2] and starts the countdown. -/
theorem queuePairing (mode : GameMode) :
    (pairingRun mode).1.games = [("g2", mode)] ∧
    queueFor (pairingRun mode).1 GameMode.sprint ++
      queueFor (pairingRun mode).1 GameMode.race = [3] ∧
    (pairingRun mode).2 =
      [MMEffect.clientSend 1 (Msg.queueJoined mode),
       MMEffect.clientSend 2 (Msg.queueJoined mode),
       MMEffect.createGame "g2" mode, MMEffect.spawnListeners "g2",
       MMEffect.gameAttach "g2" 1, MMEffect.gameAttach "g2" 2,
       MMEffect.clientSend 3 (Msg.queueJoined mode)] ∧
    gameRun (fun _ => false) gameInit [GEvent.add 1, GEvent.add 2] =
      (⟨GPhase.phase1, [1, 2], [1, 2], true⟩, [GOut.spawnCountdown]) := by
  cases mode <;> decide

/-! ## Countdown worker (`BaseGame.StartCountdown`, game.go lines 272-316)

Durations are whole seconds (`time.Duration` values that are always
multiples of `time.Second`), embedded as `Int`. -/

/-- The `defaultCountdown` (game.go line 274), in seconds. -/
def defaultCountdown : Int := 30

/-- The `readyCountdown` (game.go line 275), in seconds. -/
def readyCountdown : Int := 5

/-- Countdown worker state: the remaining time and whether
`g.countdownDone` has been closed (upon which the goroutine returns). -/
structure CdSt where
  timeLeft : Int
  closedDone : Bool
deriving DecidableEq

/-- One ticker iteration of the countdown goroutine (game.go lines
298-312): decrement, broadcast the remaining seconds, clamp down to
`readyCountdown` when more than that remains and all players are ready,
and close `countdownDone` when the remainder reaches zero.  After the
close the goroutine has returned, so further ticks do nothing. -/
def countdownTick (allReady : Bool) (s : CdSt) : CdSt × List Msg :=
  if s.closedDone then (s, [])
  else
    let t1 := s.timeLeft - 1
    let t2 := if readyCountdown < t1 ∧ allReady = true then readyCountdown else t1
    ({ timeLeft := t2, closedDone := decide (t2 ≤ 0) }, [Msg.secondsToNextRoundStart t1])

/-- State of the countdown after `n` ticks, where `ready i` is the value
`CheckAllPlayersReady` returns at tick `i`. -/
def countdownRun (ready : Nat → Bool) (s : CdSt) : Nat → CdSt
  | 0 => s
  | n + 1 => (countdownTick (ready n) (countdownRun ready s n)).1

theorem countdownRunSucc (ready : Nat → Bool) (s : CdSt) (n : Nat) :
    countdownRun ready s (n + 1) =
      (countdownTick (ready n) (countdownRun ready s n)).1 := rfl

/-- The readiness sequence in which every tick sees all players ready. -/
def alwaysReady : Nat → Bool := fun _ => true

/-- C4: at each tick, if the decremented remainder exceeds the 5-second
ready threshold and all players are ready it is clamped to exactly the
threshold, and no clamp happens at or below the threshold; the done
signal closes exactly when the remainder reaches zero, and a closed
countdown processes no further ticks; with everyone ready and more than
6 seconds left, the clamp happens on the next tick and completion fires
exactly 5 ticks after the clamping tick — not earlier and not later. -/
theorem countdownBehaviour (s : CdSt) (r : Bool) :
    (s.closedDone = false → r = true → readyCountdown < s.timeLeft - 1 →
      (countdownTick r s).1.timeLeft = readyCountdown) ∧
    (s.closedDone = false → s.timeLeft - 1 ≤ readyCountdown →
      (countdownTick r s).1.timeLeft = s.timeLeft - 1) ∧
    (s.closedDone = false → 1 ≤ s.timeLeft →
      ((countdownTick r s).1.closedDone = true ↔ (countdownTick r s).1.timeLeft = 0)) ∧
    (s.closedDone = true → countdownTick r s = (s, [])) ∧
    (s.closedDone = false → 6 < s.timeLeft →
      (countdownRun alwaysReady s 1).timeLeft = readyCountdown ∧
      (countdownRun alwaysReady s 1).closedDone = false ∧
      (countdownRun alwaysReady s 2).closedDone = false ∧
      (countdownRun alwaysReady s 3).closedDone = false ∧
      (countdownRun alwaysReady s 4).closedDone = false ∧
      (countdownRun alwaysReady s 5).closedDone = false ∧
      (countdownRun alwaysReady s 6).closedDone = true ∧
      (countdownRun alwaysReady s 6).timeLeft = 0) := by
  refine ⟨?_, ?_, ?_, ?_, ?_⟩
  · intro hd hr hlt
    simp [countdownTick, hd, hr, hlt]
  · intro hd hle
    have hcond : ¬(readyCountdown < s.timeLeft - 1 ∧ r = true) := by
      rintro ⟨h1, -⟩
      exact absurd h1 (not_lt.mpr hle)
    simp [countdownTick, hd, hcond]
  · intro hd h1
    by_cases hc : readyCountdown < s.timeLeft - 1 ∧ r = true
    · simp [countdownTick, hd, hc, readyCountdown]
      split <;> omega
    · simp [countdownTick, hd, hc, readyCountdown]
      omega
  · intro hd
    simp [countdownTick, hd]
  · intro hd h6
    have hc : readyCountdown < s.timeLeft - 1 ∧ alwaysReady 0 = true := by
      refine ⟨?_, rfl⟩
      simp only [readyCountdown]
      omega
    have h1 : countdownRun alwaysReady s 1 = { timeLeft := 5, closedDone := false } := by
      have ht : (5 : Int) < s.timeLeft - 1 := by omega
      simp [countdownRun, countdownTick, hd, alwaysReady, readyCountdown, ht]
    have h2 : countdownRun alwaysReady s 2 = { timeLeft := 4, closedDone := false } := by
      rw [countdownRunSucc, h1]; decide
    have h3 : countdownRun alwaysReady s 3 = { timeLeft := 3, closedDone := false } := by
      rw [countdownRunSucc, h2]; decide
    have h4 : countdownRun alwaysReady s 4 = { timeLeft := 2, closedDone := false } := by
      rw [countdownRunSucc, h3]; decide
    have h5 : countdownRun alwaysReady s 5 = { timeLeft := 1, closedDone := false } := by
      rw [countdownRunSucc, h4]; decide
    have h6r : countdownRun alwaysReady s 6 = { timeLeft := 0, closedDone := true } := by
      rw [countdownRunSucc, h5]; decide
    rw [h1, h2, h3, h4, h5, h6r]
    exact ⟨rfl, rfl, rfl, rfl, rfl, rfl, rfl, rfl⟩

theorem countdownBehaviourWitness :
    (({ timeLeft := 30, closedDone := false } : CdSt).closedDone = false) ∧
    ((6 : Int) < 30) ∧
    (countdownRun alwaysReady { timeLeft := 30, closedDone := false } 5).closedDone = false ∧
    (countdownRun alwaysReady { timeLeft := 30, closedDone := false } 6).closedDone = true ∧
    (countdownRun alwaysReady { timeLeft := 30, closedDone := false } 6).timeLeft = 0 :=
  ⟨rfl, by decide,
   ((countdownBehaviour { timeLeft := 30, closedDone := false } true).2.2.2.2
     rfl (by decide)).2.2.2.2.2.1,
   ((countdownBehaviour { timeLeft := 30, closedDone := false } true).2.2.2.2
     rfl (by decide)).2.2.2.2.2.2.1,
   ((countdownBehaviour { timeLeft := 30, closedDone := false } true).2.2.2.2
     rfl (by decide)).2.2.2.2.2.2.2⟩

/-! ## Connection actor cleanup (`Client.Cleanup`, main.go lines 1597-1625) -/

/-- The `Client` state relevant to cleanup: the lifetime-context flag, the
status, the bound game, the player's active flag and whether `cl.send`
is still non-nil (it is set to nil right after being closed). -/
structure ClientSt where
  cid : ClientId
  cancelled : Bool
  status : ClientStatus
  activeGame : Option GameId
  playerActive : Bool
  sendChanOpen : Bool
deriving DecidableEq

/-- Observable effects of one `Client.Cleanup` invocation.
`queueLeftSend` records a `queue_left` send performed by
`RemoveFromQueue` on the client's own channel, together with whether
that channel was still non-nil at the time (a send on a nil channel
blocks forever). -/
inductive ClientEffect
  | queueLeftSend (chanWasOpen : Bool)
  | detachSignal (gid : GameId)
  | closeSendChan
  | wsClose
deriving DecidableEq

/-- The `Client.Cleanup` (main.go lines 1597-1625): cancel the context,
attempt queue removal (error ignored), send a non-blocking detach
signal and unbind when a game is bound, close the send channel exactly
when it is still non-nil, and close the transport. -/
def Cleanup (mm : MMSt) (cl : ClientSt) : MMSt × ClientSt × List ClientEffect :=
  let cl1 := { cl with cancelled := true }
  let removeStep := RemoveFromQueue mm cl1.cid
  let queueEffs :=
    removeStep.2.1.map fun _ => ClientEffect.queueLeftSend cl1.sendChanOpen
  let detachStep : ClientSt × List ClientEffect :=
    match cl1.activeGame with
    | some gid =>
      ({ cl1 with activeGame := none, playerActive := false },
       [ClientEffect.detachSignal gid])
    | none => (cl1, [])
  let closeStep : ClientSt × List ClientEffect :=
    if detachStep.1.sendChanOpen then
      ({ detachStep.1 with sendChanOpen := false }, [ClientEffect.closeSendChan])
    else (detachStep.1, [])
  (removeStep.1, closeStep.1,
   queueEffs ++ detachStep.2 ++ closeStep.2 ++ [ClientEffect.wsClose])

/-- A queued client about to be cleaned up: client 7, alone in the
sprint queue, no bound game, send channel still open. -/
def cleanupClient0 : ClientSt :=
  { cid := 7, cancelled := false, status := ClientStatus.queued,
    activeGame := none, playerActive := false, sendChanOpen := true }

/-- First `Cleanup` invocation on `cleanupClient0`. -/
def cleanupOnce : MMSt × ClientSt × List ClientEffect :=
  Cleanup { mmEmpty with sprintQueue := [7] } cleanupClient0

/-- Second `Cleanup` invocation, on the state the first one left. -/
def cleanupTwice : MMSt × ClientSt × List ClientEffect :=
  Cleanup cleanupOnce.1 cleanupOnce.2.1

/-- C8: `Client.Cleanup` is not idempotent for a queued client.  The
first invocation leaves client 7 in the sprint queue (the `queue[:1]`
truncation in `RemoveFromQueue` keeps the head instead of deleting it),
so the second invocation performs another queue-removal send — on the
send channel that is now closed and nil, where a send blocks forever.
The send channel itself is closed exactly once (the second invocation
emits no close). -/
theorem cleanupSecondInvocation :
    cleanupOnce.1.sprintQueue = [7] ∧
    cleanupOnce.2.2 = [ClientEffect.queueLeftSend true, ClientEffect.closeSendChan,
      ClientEffect.wsClose] ∧
    ClientEffect.queueLeftSend false ∈ cleanupTwice.2.2 ∧
    ClientEffect.closeSendChan ∉ cleanupTwice.2.2 := by
  decide

/-! ## Challenges (`Matchmaker.AcceptChallenge`, main.go lines 1393-1402,
and `Client.HandleAcceptChallenge`, lines 1568-1576) -/

/-- The `Matchmaker.AcceptChallenge`: look the id up in the live-session
registry `headToHeadGames`; when found, delete the id from
`activeChallenges` and attach the client to that game; otherwise return
an error.  The error flag is the third component. -/
def AcceptChallenge (m : MMSt) (c : ClientId) (challengeID : GameId) :
    MMSt × List MMEffect × Bool :=
  match cmapGet m.games challengeID with
  | none => (m, [], true)
  | some _ =>
    ({ m with activeChallenges := cmapDel m.activeChallenges challengeID },
     [MMEffect.gameAttach challengeID c], false)

/-- The `Client.HandleAcceptChallenge`: call `AcceptChallenge` and send a
`challenge_stale` response to the client exactly when it errored. -/
def HandleAcceptChallenge (m : MMSt) (c : ClientId) (challengeID : GameId) :
    MMSt × List MMEffect :=
  let step1 := AcceptChallenge m c challengeID
  if step1.2.2 then
    (step1.1, step1.2.1 ++ [MMEffect.clientSend c Msg.challengeStale])
  else (step1.1, step1.2.1)

/-- A matchmaker whose live-session registry holds game "g1" while the
pending-challenge registry is empty (e.g. the challenge was already
accepted, or "g1" was created by queue pairing). -/
def mmLiveGameOnly : MMSt := { mmEmpty with games := [("g1", GameMode.race)] }

/-- C9 counterexample: with challenge id "g1" absent from the
pending-challenge registry but present in the live-session registry,
the claim requires a challenge-stale response and no attachment — yet
the code, which checks the live-session registry instead, attaches
client 4 and sends no stale response. -/
theorem acceptChallengeClaimFalse :
    ¬ (cmapGet mmLiveGameOnly.activeChallenges "g1" = none →
       (MMEffect.clientSend 4 Msg.challengeStale ∈
          (HandleAcceptChallenge mmLiveGameOnly 4 "g1").2 ∧
        MMEffect.gameAttach "g1" 4 ∉
          (HandleAcceptChallenge mmLiveGameOnly 4 "g1").2)) := by
  decide

/-- C9 (amended): the liveness check is against the live-session
registry, not the pending-challenge registry: when a session with the
given id exists, the id is removed from the pending registry (a no-op
if absent) and the client is attached to that session; only when no
session with that id exists does the client get a challenge-stale
response and no attachment. -/
theorem acceptChallengeBehaviour (m : MMSt) (c : ClientId) (chid : GameId) :
    ((cmapGet m.games chid).isSome = true →
      HandleAcceptChallenge m c chid =
        ({ m with activeChallenges := cmapDel m.activeChallenges chid },
         [MMEffect.gameAttach chid c])) ∧
    (cmapGet m.games chid = none →
      HandleAcceptChallenge m c chid =
        (m, [MMEffect.clientSend c Msg.challengeStale])) := by
  constructor
  · intro h
    match hg : cmapGet m.games chid with
    | some g => simp [HandleAcceptChallenge, AcceptChallenge, hg]
    | none => simp [hg] at h
  · intro h
    simp [HandleAcceptChallenge, AcceptChallenge, h]

theorem acceptChallengeBehaviourWitness :
    (cmapGet mmLiveGameOnly.games "g1").isSome = true ∧
    HandleAcceptChallenge mmLiveGameOnly 4 "g1" =
      ({ mmLiveGameOnly with
          activeChallenges := cmapDel mmLiveGameOnly.activeChallenges "g1" },
       [MMEffect.gameAttach "g1" 4]) :=
  ⟨by decide, (acceptChallengeBehaviour mmLiveGameOnly 4 "g1").1 (by decide)⟩

/-! ## Player updates and the session maximum level
(`Client.HandlePlayerUpdate`, main.go lines 1552-1561;
`BaseGame.GetMaxLevel` / `SetMaxLevel`, game.go lines 328-334;
`RaceBroadcaster.Start`, broadcaster.go lines 103-120) -/

/-- The `PlayerUpdateRequest` (messages.go).  The float64 position and
rotation payload fields are omitted from the embedding (floating point;
no claim refers to them). -/
structure PlayerUpdateRequest where
  level : Int
deriving DecidableEq

/-- The `Client.HandlePlayerUpdate`: write the reported level into the
player, then — only when a game is bound — raise the session state's
`MaxLevel` when the reported level exceeds it.  The bound game is
summarized by its `MaxLevel` value. -/
def HandlePlayerUpdate (p : Player) (activeGameMaxLevel : Option Int)
    (req : PlayerUpdateRequest) : Player × Option Int :=
  let p1 := { p with level := req.level }
  match activeGameMaxLevel with
  | none => (p1, none)
  | some maxLevel =>
    (p1, some (if maxLevel < req.level then req.level else maxLevel))

/-- Apply a sequence of player updates in order. -/
def runUpdates (p : Player) (ml : Option Int) :
    List PlayerUpdateRequest → Player × Option Int
  | [] => (p, ml)
  | r :: rs =>
    let step1 := HandlePlayerUpdate p ml r
    runUpdates step1.1 step1.2 rs

/-- The race round-end condition `game.State.MaxLevel > rb.levelTarget`
(broadcaster.go line 110). -/
def raceRoundOver (maxLevel levelTarget : Int) : Bool :=
  decide (levelTarget < maxLevel)

/-- Across any update sequence the bound game's maximum level stays
defined and never decreases. -/
theorem runUpdatesMono (rs : List PlayerUpdateRequest) :
    ∀ (p : Player) (ml : Int),
      ∃ v, (runUpdates p (some ml) rs).2 = some v ∧ ml ≤ v := by
  induction rs with
  | nil => exact fun p ml => ⟨ml, rfl, le_refl ml⟩
  | cons r rs ih =>
    intro p ml
    obtain ⟨v, hv, hle⟩ :=
      ih { p with level := r.level } (if ml < r.level then r.level else ml)
    refine ⟨v, hv, le_trans ?_ hle⟩
    by_cases h : ml < r.level
    · rw [if_pos h]; exact le_of_lt h
    · rw [if_neg h]

/-- C10: for a client bound to an active session, `HandlePlayerUpdate`
sets the player's level to the reported one and the session's
`MaxLevel` to the maximum of its previous value and the reported level;
hence `MaxLevel` is monotonically nondecreasing across any sequence of
updates, and the race round-end condition, once true, stays true under
further updates. -/
theorem maxLevelBehaviour (p : Player) (ml : Int) (req : PlayerUpdateRequest)
    (rs : List PlayerUpdateRequest) (levelTarget : Int) :
    (HandlePlayerUpdate p (some ml) req =
      ({ p with level := req.level }, some (max ml req.level))) ∧
    ((runUpdates p (some ml) rs).2.isSome = true) ∧
    (ml ≤ (runUpdates p (some ml) rs).2.getD ml) ∧
    (raceRoundOver ml levelTarget = true →
      raceRoundOver ((runUpdates p (some ml) rs).2.getD ml) levelTarget = true) := by
  obtain ⟨v, hv, hle⟩ := runUpdatesMono rs p ml
  have hmax : (if ml < req.level then req.level else ml) = max ml req.level := by
    rcases le_or_lt req.level ml with h | h
    · rw [if_neg (not_lt.mpr h), max_eq_left h]
    · rw [if_pos h, max_eq_right h.le]
  refine ⟨?_, ?_, ?_, ?_⟩
  · simp [HandlePlayerUpdate, hmax]
  · rw [hv]; rfl
  · rw [hv]; simpa using hle
  · intro hover
    rw [hv]
    simp only [Option.getD_some, raceRoundOver, decide_eq_true_eq] at hover ⊢
    exact lt_of_lt_of_le hover hle

theorem maxLevelBehaviourWitness :
    raceRoundOver 2 1 = true ∧
    raceRoundOver
      ((runUpdates pLvl5 (some 2)
          [{ level := 3 }, { level := 9 }]).2.getD 2) 1 = true :=
  ⟨rfl,
   (maxLevelBehaviour pLvl5 2 { level := 3 } [{ level := 3 }, { level := 9 }] 1).2.2.2 rfl⟩

end MazeRacer
